import Mathlib

/-!
Shallow embedding of the recipe-platform backend (TypeScript source):
the paginated hybrid query engine (`RecipeRepository.findAll`,
`BaseRepository.paginateQuery`), the generic document update
(`BaseRepository.update`), and the domain services (recipe, ingredient,
category, review) with their invariants, ownership checks and cascades.
Entities are records, the backing store is a list of entities, and every
service method is a state-passing function returning the thrown error (if
any) together with the resulting state.
-/

namespace RecipePlatform

/-- Error taxonomy of the services: each constructor stands for one family
of `AppError` throws in the source (404 not-found, 403 ownership,
400 duplicate conflicts, 500 update/delete failures). -/
inductive Err where
  | notFound
  | forbidden
  | conflict
  | updateFailed
  | deleteFailed
deriving Repr, DecidableEq

/-- Entity `Recipe` (src/types: interface Recipe). Timestamps are
abstracted to naturals, `difficulty` to its string value. -/
structure Recipe where
  id : String
  title : String
  description : String
  instructions : String
  prepTime : Nat
  cookTime : Nat
  servings : Nat
  difficulty : String
  createdBy : String
  createdAt : Nat
  updatedAt : Nat
  categoryIds : List String
  ingredientIds : List String
deriving Repr, DecidableEq

/-- Entity `Ingredient` (src/types: interface Ingredient). -/
structure Ingredient where
  id : String
  name : String
  unit : String
  quantity : Nat
  recipeId : String
  createdAt : Nat
  updatedAt : Nat
deriving Repr, DecidableEq

/-- Entity `Category` (src/types: interface Category). -/
structure Category where
  id : String
  name : String
  description : Option String
  createdAt : Nat
  updatedAt : Nat
deriving Repr, DecidableEq

/-- Entity `Review` (src/types: interface Review). -/
structure Review where
  id : String
  recipeId : String
  userId : String
  userName : Option String
  rating : Nat
  comment : Option String
  createdAt : Nat
  updatedAt : Nat
deriving Repr, DecidableEq

/-! ### String helpers: JavaScript `String.prototype.includes` over
lower-cased strings, used by the memory-only search filters. -/

/-- Whether the first character list starts the second
(JS `startsWith` on char lists). -/
def hasPre : List Char → List Char → Bool
  | [], _ => true
  | _ :: _, [] => false
  | c :: cs, d :: ds => c == d && hasPre cs ds

/-- Whether `sub` occurs contiguously inside `l`
(JS `includes` on char lists). -/
def containsChars (sub : List Char) : List Char → Bool
  | [] => hasPre sub []
  | c :: t => hasPre sub (c :: t) || containsChars sub t

/-- JS `s.includes(sub)`. -/
def strIncludes (s sub : String) : Bool :=
  containsChars sub.toList s.toList

/-- JS truthiness of an optional string (`if (filters.search)`):
present and non-empty. -/
def strTruthy : Option String → Bool
  | some s => !(s == "")
  | none => false

/-- JS `s.toLowerCase()`: lower-case each character. -/
def jsToLower (s : String) : String := ⟨s.data.map Char.toLower⟩

/-! ### Recipe query options (src/types: RecipeFilterOptions,
RecipeQueryOptions). -/

/-- Filter options of the recipe list endpoint. -/
structure RecipeFilters where
  categoryId : Option String := none
  difficulty : Option String := none
  createdBy : Option String := none
  search : Option String := none
  minPrepTime : Option Nat := none
  maxPrepTime : Option Nat := none
  minCookTime : Option Nat := none
  maxCookTime : Option Nat := none
  minServings : Option Nat := none
  maxServings : Option Nat := none
  createdAfter : Option Nat := none
  createdBefore : Option Nat := none
deriving Repr, DecidableEq

/-- Sortable recipe fields (src/types: RecipeSortField). -/
inductive RSortField where
  | createdAt
  | updatedAt
  | title
  | prepTime
  | cookTime
  | servings
  | difficulty
deriving Repr, DecidableEq

/-- Sort direction. -/
inductive SortDir where
  | asc
  | desc
deriving Repr, DecidableEq

/-- Sort specification `{field, order}`. -/
structure RSort where
  field : RSortField
  order : SortDir
deriving Repr, DecidableEq

/-- Field-wise comparison used by the store's `orderBy`. -/
def fieldLe (f : RSortField) (a b : Recipe) : Bool :=
  match f with
  | .createdAt => a.createdAt ≤ b.createdAt
  | .updatedAt => a.updatedAt ≤ b.updatedAt
  | .title => a.title ≤ b.title
  | .prepTime => a.prepTime ≤ b.prepTime
  | .cookTime => a.cookTime ≤ b.cookTime
  | .servings => a.servings ≤ b.servings
  | .difficulty => a.difficulty ≤ b.difficulty

/-- Comparison for a full sort spec (descending flips the order). -/
def sortLe (s : RSort) (a b : Recipe) : Bool :=
  match s.order with
  | .asc => fieldLe s.field a b
  | .desc => fieldLe s.field b a

/-- The store's sorted query result: stable sort of the collection by the
sort spec (models Firestore `orderBy`). -/
def rSort (s : RSort) (l : List Recipe) : List Recipe :=
  l.insertionSort (fun a b => sortLe s a b = true)

/-- Store-pushable part of the recipe filters, exactly the `where`
clauses `RecipeRepository.findAll` sends to the store: difficulty and
createdBy equality (JS-truthy guard), categoryId membership (JS-truthy
guard), and the createdAt range. -/
def pushPred (f : RecipeFilters) (r : Recipe) : Bool :=
  (match f.difficulty with
    | some d => if d == "" then true else r.difficulty == d
    | none => true) &&
  (match f.createdBy with
    | some u => if u == "" then true else r.createdBy == u
    | none => true) &&
  (match f.categoryId with
    | some c => if c == "" then true else r.categoryIds.contains c
    | none => true) &&
  (match f.createdAfter with
    | some t => t ≤ r.createdAt
    | none => true) &&
  (match f.createdBefore with
    | some t => r.createdAt ≤ t
    | none => true)

/-- The substring search predicate applied in memory: lower-cased search
term contained in the lower-cased title or description. -/
def searchPred (s : String) (r : Recipe) : Bool :=
  strIncludes (jsToLower r.title) (jsToLower s) ||
  strIncludes (jsToLower r.description) (jsToLower s)

/-- Whether the query needs the in-memory filtering path
(`needsMemoryFiltering` in `RecipeRepository.findAll`). -/
def needsMemoryFiltering (f : RecipeFilters) : Bool :=
  strTruthy f.search ||
  f.minPrepTime.isSome || f.maxPrepTime.isSome ||
  f.minCookTime.isSome || f.maxCookTime.isSome ||
  f.minServings.isSome || f.maxServings.isSome

/-- One optional in-memory filtering step: filter when the option is
present, identity otherwise. -/
def optFilter (o : Option Nat) (g : Nat → Recipe → Bool)
    (l : List Recipe) : List Recipe :=
  match o with
  | some v => l.filter (g v)
  | none => l

/-- JS `Math.ceil(total / limit)` for a positive integer `limit`. -/
def jsCeilDiv (total limit : Nat) : Nat :=
  (total + limit - 1) / limit

/-- Paginated response shape `{data, total, page, limit, totalPages}`. -/
structure Paginated (α : Type) where
  data : List α
  total : Nat
  page : Nat
  limit : Nat
  totalPages : Nat
deriving Repr, DecidableEq

/-- Pagination helper `BaseRepository.paginateQuery`: count the full query result, then
slice `[(page-1)*limit, page*limit)` of it. -/
def paginateQuery (q : List Recipe) (page limit : Nat) :
    Paginated Recipe :=
  let total := q.length
  let offset := (page - 1) * limit
  { data := (q.drop offset).take limit
    total := total
    page := page
    limit := limit
    totalPages := jsCeilDiv total limit }

/-- The text-search step of the memory path (`if (filters.search)` with
JS truthiness, then the filter). -/
def searchFilter (o : Option String) (l : List Recipe) : List Recipe :=
  match o with
  | some str => if str == "" then l else l.filter (searchPred str)
  | none => l

/-- The in-memory filtering sequence of `RecipeRepository.findAll`:
text search, then the six numeric range filters, applied one after the
other exactly as in the source. -/
def memChain (f : RecipeFilters) (q : List Recipe) : List Recipe :=
  let r1 := searchFilter f.search q
  let r2 := optFilter f.minPrepTime (fun v r => v ≤ r.prepTime) r1
  let r3 := optFilter f.maxPrepTime (fun v r => r.prepTime ≤ v) r2
  let r4 := optFilter f.minCookTime (fun v r => v ≤ r.cookTime) r3
  let r5 := optFilter f.maxCookTime (fun v r => r.cookTime ≤ v) r4
  let r6 := optFilter f.minServings (fun v r => v ≤ r.servings) r5
  optFilter f.maxServings (fun v r => r.servings ≤ v) r6

/-- Repository method `RecipeRepository.findAll` over a collection: push the pushable
filters and the sort to the store; if any memory-only filter is present,
fetch the full result, apply search and the six numeric range filters in
sequence, then count and slice manually; otherwise delegate pagination to
the store. -/
def findAll (coll : List Recipe) (page limit : Nat)
    (f : RecipeFilters) (s : RSort) : Paginated Recipe :=
  let q := rSort s (coll.filter (pushPred f))
  if needsMemoryFiltering f then
    let r7 := memChain f q
    let total := r7.length
    let totalPages := jsCeilDiv total limit
    let start := (page - 1) * limit
    { data := (r7.drop start).take limit
      total := total
      page := page
      limit := limit
      totalPages := totalPages }
  else
    paginateQuery q page limit

/-- The combined memory-only predicate: search plus all six numeric
range filters, with absent filters vacuously true. -/
def memPred (f : RecipeFilters) (r : Recipe) : Bool :=
  (match f.search with
    | some str => if str == "" then true else searchPred str r
    | none => true) &&
  (match f.minPrepTime with | some v => v ≤ r.prepTime | none => true) &&
  (match f.maxPrepTime with | some v => r.prepTime ≤ v | none => true) &&
  (match f.minCookTime with | some v => v ≤ r.cookTime | none => true) &&
  (match f.maxCookTime with | some v => r.cookTime ≤ v | none => true) &&
  (match f.minServings with | some v => v ≤ r.servings | none => true) &&
  (match f.maxServings with | some v => r.servings ≤ v | none => true)

/-! ### Service-layer state and operations.
The services keep their entities in keyed stores (`Map` in the in-memory
variants, Firestore collections in the repository-backed ones); both are
modelled as lists of entities looked up by `id`.  Each operation takes
the state and returns the outcome (`Except Err α`) together with the
resulting state; a thrown `AppError` is the `.error` case and leaves the
state as it was at the throw site. -/

/-- Whole-system state: the four entity stores plus the id counters the
in-memory services use for fresh identifiers. -/
structure St where
  recipes : List Recipe
  ingredients : List Ingredient
  reviews : List Review
  cats : List Category
  reviewCounter : Nat := 1
  catCounter : Nat := 1
deriving Repr, DecidableEq

/-- Store lookup by id (`Map.get` / `findById`). -/
def getRecipe (st : St) (id : String) : Option Recipe :=
  st.recipes.find? (fun r => r.id == id)

/-- Store lookup by id for ingredients. -/
def getIngredient (st : St) (id : String) : Option Ingredient :=
  st.ingredients.find? (fun i => i.id == id)

/-- Store lookup by id for reviews. -/
def getReview (st : St) (id : String) : Option Review :=
  st.reviews.find? (fun r => r.id == id)

/-- Store lookup by id for categories. -/
def getCat (st : St) (id : String) : Option Category :=
  st.cats.find? (fun c => c.id == id)

/-- Store write (`Map.set`) on the recipe store: replace the entry with the given id. -/
def setRecipe (st : St) (id : String) (r : Recipe) : St :=
  { st with recipes := st.recipes.map (fun x => if x.id == id then r else x) }

/-! #### Recipe service (src/services/recipeService.ts) -/

/-- Update DTO for recipes (src/types: UpdateRecipeDto). -/
structure UpdateRecipeDto where
  title : Option String := none
  description : Option String := none
  instructions : Option String := none
  prepTime : Option Nat := none
  cookTime : Option Nat := none
  servings : Option Nat := none
  difficulty : Option String := none
  imageUrl : Option String := none
  categoryIds : Option (List String) := none
deriving Repr, DecidableEq

/-- The object spread `{...recipe, ...data, updatedAt: new Date()}`:
fields present in the DTO override, the rest are kept. -/
def mergeRecipe (r : Recipe) (d : UpdateRecipeDto) (now : Nat) : Recipe :=
  { r with
    title := d.title.getD r.title
    description := d.description.getD r.description
    instructions := d.instructions.getD r.instructions
    prepTime := d.prepTime.getD r.prepTime
    cookTime := d.cookTime.getD r.cookTime
    servings := d.servings.getD r.servings
    difficulty := d.difficulty.getD r.difficulty
    categoryIds := d.categoryIds.getD r.categoryIds
    updatedAt := now }

/-- Service method `RecipeService.updateRecipe(id, userId, data)`: 404 when absent,
403 when the caller is not the creator, else merge and store. -/
def updateRecipe (st : St) (id userId : String) (d : UpdateRecipeDto)
    (now : Nat) : Except Err Recipe × St :=
  match getRecipe st id with
  | none => (.error .notFound, st)
  | some r =>
    if r.createdBy ≠ userId then (.error .forbidden, st)
    else
      let merged := mergeRecipe r d now
      (.ok merged, setRecipe st id merged)

/-- Service method `RecipeService.deleteRecipe(id, userId)`: 404 when absent, 403 when
the caller is not the creator, else remove the recipe record (and only
the recipe record). -/
def deleteRecipe (st : St) (id userId : String) : Except Err Unit × St :=
  match getRecipe st id with
  | none => (.error .notFound, st)
  | some r =>
    if r.createdBy ≠ userId then (.error .forbidden, st)
    else (.ok (), { st with recipes := st.recipes.filter (fun x => x.id != id) })

/-- Service method `RecipeService.removeIngredientFromRecipe(recipeId, ingredientId)`:
404 when the recipe is absent, else filter the id out of
`ingredientIds` and store the updated recipe. -/
def removeIngredientFromRecipe (st : St) (recipeId ingredientId : String)
    (now : Nat) : Except Err Recipe × St :=
  match getRecipe st recipeId with
  | none => (.error .notFound, st)
  | some r =>
    let updated := { r with
      ingredientIds := r.ingredientIds.filter (fun x => x != ingredientId)
      updatedAt := now }
    (.ok updated, setRecipe st recipeId updated)

/-! #### Ingredient service (src/services/ingredientService.ts) -/

/-- Service method `IngredientService.deleteIngredient(id)`: look the ingredient up
(404 when absent), unlink it from its parent recipe via
`removeIngredientFromRecipe`, then delete the ingredient record
(500 `DELETE_FAILED` when the record vanished). -/
def deleteIngredient (st : St) (id : String) (now : Nat) :
    Except Err Unit × St :=
  match getIngredient st id with
  | none => (.error .notFound, st)
  | some ing =>
    match removeIngredientFromRecipe st ing.recipeId id now with
    | (.error e, st1) => (.error e, st1)
    | (.ok _, st1) =>
      if (getIngredient st1 id).isSome then
        (.ok (), { st1 with
          ingredients := st1.ingredients.filter (fun x => x.id != id) })
      else (.error .deleteFailed, st1)

/-! #### Category service (src/services/categoryService.ts, the
map-backed variant whose duplicate checks scan the values). -/

/-- Create DTO for categories. -/
structure CreateCategoryDto where
  name : String
  description : Option String := none
deriving Repr, DecidableEq

/-- Update DTO for categories. -/
structure UpdateCategoryDto where
  name : Option String := none
  description : Option String := none
deriving Repr, DecidableEq

/-- Service method `CategoryService.createCategory(data)`: scan all categories for a
case-insensitive name match; 400 duplicate conflict when found, else
insert a fresh record. -/
def createCategory (st : St) (data : CreateCategoryDto) (now : Nat) :
    Except Err Category × St :=
  if (st.cats.find?
      (fun c => jsToLower c.name == jsToLower data.name)).isSome then
    (.error .conflict, st)
  else
    let id := "category_" ++ toString st.catCounter
    let c : Category :=
      { id := id, name := data.name, description := data.description
        createdAt := now, updatedAt := now }
    (.ok c, { st with cats := st.cats ++ [c],
                      catCounter := st.catCounter + 1 })

/-- Service method `CategoryService.updateCategory(id, data)`: 404 when absent; when a
(JS-truthy) name is supplied, scan all other categories for a
case-insensitive match and fail with the duplicate conflict; else merge
and store. -/
def updateCategory (st : St) (id : String) (data : UpdateCategoryDto)
    (now : Nat) : Except Err Category × St :=
  match getCat st id with
  | none => (.error .notFound, st)
  | some c =>
    let dup : Bool :=
      match data.name with
      | some n =>
        if n == "" then false
        else (st.cats.find? (fun (x : Category) =>
          x.id != id && jsToLower x.name == jsToLower n)).isSome
      | none => false
    if dup then (.error .conflict, st)
    else
      let merged : Category :=
        { c with
          name := data.name.getD c.name
          description :=
            match data.description with
            | some d => some d
            | none => c.description
          updatedAt := now }
      let cats2 := st.cats.map (fun (x : Category) => if x.id == id then merged else x)
      (.ok merged, { st with cats := cats2 })

/-- Service method `CategoryService.deleteCategory(id)`: 404 when absent, else remove
the category record; the recipes referencing it are not touched. -/
def deleteCategory (st : St) (id : String) : Except Err Unit × St :=
  match getCat st id with
  | none => (.error .notFound, st)
  | some _ =>
    (.ok (), { st with cats := st.cats.filter (fun c => c.id != id) })

/-! #### Review service (src/services/reviewService.ts together with
ReviewRepository). -/

/-- Create DTO for reviews. -/
structure CreateReviewDto where
  rating : Nat
  comment : Option String := none
deriving Repr, DecidableEq

/-- Update DTO for reviews. -/
structure UpdateReviewDto where
  rating : Option Nat := none
  comment : Option String := none
deriving Repr, DecidableEq

/-- Repository method `ReviewRepository.findByRecipeAndUser(recipeId, userId)`. -/
def findByRecipeAndUser (st : St) (recipeId userId : String) :
    Option Review :=
  st.reviews.find? (fun r => r.recipeId == recipeId && r.userId == userId)

/-- Service method `ReviewService.createReview(recipeId, userId, userName, data)`:
verify the recipe exists (404), reject a second review by the same
author on the same recipe (duplicate conflict), else persist a fresh
review.  The recipe store is not touched. -/
def createReview (st : St) (recipeId userId : String)
    (userName : Option String) (data : CreateReviewDto) (now : Nat) :
    Except Err Review × St :=
  match getRecipe st recipeId with
  | none => (.error .notFound, st)
  | some _ =>
    if (findByRecipeAndUser st recipeId userId).isSome then
      (.error .conflict, st)
    else
      let id := "review_" ++ toString st.reviewCounter
      let rv : Review :=
        { id := id, recipeId := recipeId, userId := userId
          userName := userName, rating := data.rating
          comment := data.comment, createdAt := now, updatedAt := now }
      (.ok rv, { st with reviews := st.reviews ++ [rv],
                         reviewCounter := st.reviewCounter + 1 })

/-- Service method `ReviewService.updateReview(id, userId, data)`: 404 when absent,
403 when the caller is not the author, else merge and store. -/
def updateReview (st : St) (id userId : String) (data : UpdateReviewDto)
    (now : Nat) : Except Err Review × St :=
  match getReview st id with
  | none => (.error .notFound, st)
  | some r =>
    if r.userId ≠ userId then (.error .forbidden, st)
    else
      let merged : Review :=
        { r with
          rating := data.rating.getD r.rating
          comment :=
            match data.comment with
            | some c => some c
            | none => r.comment
          updatedAt := now }
      let reviews2 := st.reviews.map (fun (x : Review) => if x.id == id then merged else x)
      (.ok merged, { st with reviews := reviews2 })

/-- Service method `ReviewService.deleteReview(id, userId)`: 404 when absent, 403 when
the caller is not the author, else delete the review record.  The
caller's roles are not consulted. -/
def deleteReview (st : St) (id userId : String) : Except Err Unit × St :=
  match getReview st id with
  | none => (.error .notFound, st)
  | some r =>
    if r.userId ≠ userId then (.error .forbidden, st)
    else (.ok (), { st with reviews := st.reviews.filter (fun x => x.id != id) })

/-- The DELETE /reviews/:id route: the `isAuthorized` role gate (its
middleware source is absent from the repository; modelled from the
spec: a pre-computed boolean role-permitted decision made before the
core is invoked, here membership of one of the listed roles) followed
by `ReviewService.deleteReview(id, caller)` — the service receives only
the caller's uid, never the roles. -/
def deleteReviewEndpoint (st : St) (id callerUid : String)
    (callerRoles : List String) : Except Err Unit × St :=
  if callerRoles.any (fun r => r == "user" || r == "admin") then
    deleteReview st id callerUid
  else
    (.error .forbidden, st)

/-! #### Rating aggregation (ReviewRepository.getAverageRating), with
the arithmetic carried out exactly over `ℚ`. -/

/-- JS `Math.round`: round half toward positive infinity. -/
def jsRound (x : ℚ) : ℤ := ⌊x + 1/2⌋

/-- Round-half-away-from-zero to the nearest integer (the rounding mode
named by the specification). -/
def roundHalfAway (x : ℚ) : ℤ :=
  if 0 ≤ x then ⌊x + 1/2⌋ else -⌊-x + 1/2⌋

/-- Round-half-away-from-zero at the tenths digit. -/
def roundHalfAwayTenths (x : ℚ) : ℚ :=
  (roundHalfAway (x * 10) : ℚ) / 10

/-- Sum of the ratings of a list of reviews (a natural number). -/
def ratingSum (rs : List Review) : Nat :=
  (rs.map (fun r => r.rating)).sum

/-- Repository method `ReviewRepository.getAverageRating(recipeId)`: full scan filtered by
recipeId; `{average: 0, count: 0}` on the empty set, else the sum of the
ratings divided by the count, with
`Math.round((sum / count) * 10) / 10`. -/
def getAverageRating (reviews : List Review) (recipeId : String) :
    ℚ × Nat :=
  let rs := reviews.filter (fun r => r.recipeId == recipeId)
  if rs.isEmpty then (0, 0)
  else
    let sum : Nat := (rs.map (fun r => r.rating)).sum
    let count := rs.length
    ((jsRound (((sum : ℚ) / (count : ℚ)) * 10) : ℚ) / 10, count)

/-! #### Generic document update (BaseRepository.update).
A stored document is an association list from field names to opaque
values; `docRef.update(updateData)` writes each field of `updateData`
into the document, leaving all other fields alone. -/

/-- Field access on a document (first entry with the given key). -/
def getVal (doc : List (String × α)) (k : String) : Option α :=
  match doc with
  | [] => none
  | p :: t => if p.1 == k then some p.2 else getVal t k

/-- Write one field into a document: overwrite in place when the key
exists, append otherwise. -/
def setKey (doc : List (String × α)) (k : String) (v : α) :
    List (String × α) :=
  if (getVal doc k).isSome then
    doc.map (fun p => if p.1 == k then (k, v) else p)
  else doc ++ [(k, v)]

/-- Firestore `docRef.update(updateData)`: fold the update fields into
the document. -/
def applyUpdateData (doc upd : List (String × α)) : List (String × α) :=
  upd.foldl (fun d p => setKey d p.1 p.2) doc

/-- The update payload `BaseRepository.update` builds:
`{...data, updatedAt: now}` with the `id` key deleted. -/
def buildUpdateData (data : List (String × α)) (now : α) :
    List (String × α) :=
  (data.filter (fun p => p.1 != "id" && p.1 != "updatedAt")) ++
    [("updatedAt", now)]

/-- Repository method `BaseRepository.update(id, data)` on a keyed store of documents:
`none` when the document is absent, else the document with the update
payload applied. -/
def repoUpdate (store : List (String × List (String × α)))
    (id : String) (data : List (String × α)) (now : α) :
    Option (List (String × α)) :=
  match getVal store id with
  | none => none
  | some doc => some (applyUpdateData doc (buildUpdateData data now))

/-! ### Sample entities used by concrete witnesses and counterexamples. -/

/-- Sample recipe record. -/
def sampleRecipe (id owner : String) (createdAt servings : Nat)
    (ings cs : List String) : Recipe :=
  { id := id, title := "Pasta Carbonara", description := "A classic dish"
    instructions := "Cook it", prepTime := 10, cookTime := 20
    servings := servings, difficulty := "easy", createdBy := owner
    createdAt := createdAt, updatedAt := createdAt
    categoryIds := cs, ingredientIds := ings }

/-- Sample recipe collection for the pagination witnesses. -/
def wColl : List Recipe :=
  [sampleRecipe "r1" "alice" 3 2 [] [],
   sampleRecipe "r2" "bob" 1 4 [] [],
   sampleRecipe "r3" "carol" 2 6 [] []]

/-- Sample filter set containing a memory-only predicate. -/
def wFilters : RecipeFilters := { minServings := some 3 }

/-- Default recipe sort: createdAt descending. -/
def wSort : RSort := { field := .createdAt, order := .desc }

/-- Sample ingredient record. -/
def sampleIngredient (id rid : String) : Ingredient :=
  { id := id, name := "Eggs", unit := "pcs", quantity := 3
    recipeId := rid, createdAt := 1, updatedAt := 1 }

/-- Sample review record. -/
def sampleReview (id rid uid : String) (rating : Nat) : Review :=
  { id := id, recipeId := rid, userId := uid, userName := some "User"
    rating := rating, comment := none, createdAt := 1, updatedAt := 1 }

/-- Sample category record. -/
def sampleCat (id nm : String) : Category :=
  { id := id, name := nm, description := none
    createdAt := 1, updatedAt := 1 }

/-- Sample category store with one category named Dessert. -/
def wCatSt : St :=
  { recipes := [], ingredients := [], reviews := []
    cats := [sampleCat "category_1" "Dessert"]
    reviewCounter := 1, catCounter := 2 }

/-- Sample category store with two categories, Dessert and Salad. -/
def wCatSt2 : St :=
  { recipes := [], ingredients := [], reviews := []
    cats := [sampleCat "category_1" "Dessert", sampleCat "category_2" "Salad"]
    reviewCounter := 1, catCounter := 3 }

/-- Sample reviews: ratings 5, 3 and 4 on recipe r1. -/
def wReviews : List Review :=
  [sampleReview "rev_1" "r1" "u1" 5,
   sampleReview "rev_2" "r1" "u2" 3,
   sampleReview "rev_3" "r1" "u3" 4]

/-- Sample state with one recipe and one review by u1 on it. -/
def wRevSt : St :=
  { recipes := [sampleRecipe "r1" "alice" 1 2 [] []]
    ingredients := [], reviews := [sampleReview "rev_1" "r1" "u1" 5]
    cats := [], reviewCounter := 2, catCounter := 1 }

/-- Sample state with one recipe owning two ingredients and three
reviews (the cascade scenario of the specification). -/
def wCascadeSt : St :=
  { recipes := [sampleRecipe "r1" "alice" 1 2 ["ing_1", "ing_2"] []]
    ingredients := [sampleIngredient "ing_1" "r1",
                    sampleIngredient "ing_2" "r1"]
    reviews := wReviews
    cats := [], reviewCounter := 4, catCounter := 1 }

/-- Sample state with one recipe referencing one category. -/
def wCatRecipeSt : St :=
  { recipes := [sampleRecipe "r1" "alice" 1 2 [] ["cat_1"]]
    ingredients := [], reviews := []
    cats := [sampleCat "cat_1" "Dessert"]
    reviewCounter := 1, catCounter := 2 }

/-- Sample state with one recipe owning one linked ingredient. -/
def wIngSt : St :=
  { recipes := [sampleRecipe "r1" "alice" 1 2 ["ing_1"] []]
    ingredients := [sampleIngredient "ing_1" "r1"]
    reviews := [], cats := [], reviewCounter := 1, catCounter := 1 }

/-- Sample stored document (fields as numbered opaque values). -/
def wDoc : List (String × Nat) :=
  [("id", 1), ("title", 2), ("description", 3), ("updatedAt", 4)]

/-- Sample one-document store. -/
def wStore : List (String × List (String × Nat)) := [("doc_1", wDoc)]

/-- Sample update payload carrying a new title and a spoofed id. -/
def wData : List (String × Nat) := [("title", 20), ("id", 99)]

/-- The document resulting from applying the sample payload. -/
def wDoc2 : List (String × Nat) :=
  [("id", 1), ("title", 20), ("description", 3), ("updatedAt", 9)]

/-! ### Helper lemmas about the query engine. -/

/-- One optional numeric filter step equals a plain filter whose
predicate is vacuously true when the option is absent. -/
theorem optFilter_eq_filter (o : Option Nat) (g : Nat → Recipe → Bool)
    (l : List Recipe) :
    optFilter o g l =
      l.filter (fun r => match o with | some v => g v r | none => true) := by
  cases o with
  | none => simp [optFilter, List.filter_true]
  | some v => rfl

/-- The search step equals a plain filter with the corresponding
optional predicate. -/
theorem searchFilter_eq_filter (o : Option String) (l : List Recipe) :
    searchFilter o l =
      l.filter (fun r => match o with
        | some str => if str == "" then true else searchPred str r
        | none => true) := by
  cases o with
  | none => simp [searchFilter, List.filter_true]
  | some str =>
    cases hs : (str == "") with
    | true => simp [searchFilter, hs, List.filter_true]
    | false => simp [searchFilter, hs]

/-- The sequential in-memory filtering chain computes one filter by the
combined memory-only predicate. -/
theorem memChain_eq_filter (f : RecipeFilters) (q : List Recipe) :
    memChain f q = q.filter (memPred f) := by
  unfold memChain
  rw [searchFilter_eq_filter, optFilter_eq_filter, optFilter_eq_filter,
    optFilter_eq_filter, optFilter_eq_filter, optFilter_eq_filter,
    optFilter_eq_filter]
  simp only [List.filter_filter]
  congr 1
  funext r
  simp only [memPred]
  cases f.search <;> cases f.minPrepTime <;> cases f.maxPrepTime <;>
    cases f.minCookTime <;> cases f.maxCookTime <;> cases f.minServings <;>
    cases f.maxServings <;> ac_rfl

/-- The ceiling division of the source is at least `total / limit`:
`total ≤ totalPages * limit`. -/
theorem jsCeilDiv_ge (t l : Nat) (hl : 0 < l) : t ≤ jsCeilDiv t l * l := by
  rcases Nat.eq_zero_or_pos t with ht | ht
  · subst ht
    simp [jsCeilDiv, Nat.div_eq_of_lt (Nat.sub_lt hl Nat.one_pos)]
  · have harg : t + l - 1 = (t - 1) + l := by omega
    rw [jsCeilDiv, harg, Nat.add_div_right _ hl]
    have h1 := Nat.div_add_mod (t - 1) l
    have h2 := Nat.mod_lt (t - 1) hl
    have h3 : ((t - 1) / l + 1) * l = l * ((t - 1) / l) + l := by ring
    rw [h3]
    omega

/-- The ceiling division of the source is the least such bound:
`totalPages * limit < total + limit`. -/
theorem jsCeilDiv_lt (t l : Nat) (hl : 0 < l) : jsCeilDiv t l * l < t + l := by
  rcases Nat.eq_zero_or_pos t with ht | ht
  · subst ht
    simp only [jsCeilDiv]
    rw [Nat.zero_add, Nat.div_eq_of_lt (Nat.sub_lt hl Nat.one_pos)]
    omega
  · have harg : t + l - 1 = (t - 1) + l := by omega
    rw [jsCeilDiv, harg, Nat.add_div_right _ hl]
    have h1 := Nat.div_add_mod (t - 1) l
    have h2 := Nat.mod_lt (t - 1) hl
    have h3 : ((t - 1) / l + 1) * l = l * ((t - 1) / l) + l := by ring
    rw [h3]
    omega

/-- A zero total yields zero pages. -/
theorem jsCeilDiv_zero (l : Nat) (hl : 0 < l) : jsCeilDiv 0 l = 0 := by
  simp [jsCeilDiv, Nat.div_eq_of_lt (Nat.sub_lt hl Nat.one_pos)]

/-- Both branches of `findAll` produce the `paginateQuery` shape over
the fully filtered list. -/
theorem findAll_eq_paginateQuery (coll : List Recipe) (page limit : Nat)
    (f : RecipeFilters) (s : RSort) :
    findAll coll page limit f s =
      paginateQuery
        (if needsMemoryFiltering f then
          memChain f (rSort s (coll.filter (pushPred f)))
        else rSort s (coll.filter (pushPred f))) page limit := by
  unfold findAll paginateQuery
  cases h : needsMemoryFiltering f <;> simp [h]

/-- C1: when the recipe list query includes at least one memory-only
predicate (title/description substring search or a
prepTime/cookTime/servings range), `findAll` takes the in-memory path:
the returned `total` equals the number of collection entities satisfying
all filters combined (store-pushable and memory-only), and `data` is the
slice `[(page-1)*limit, page*limit)` of the store-sorted, fully filtered
sequence (so the in-memory filters preserve the sort order). -/
theorem c1_memory_filter_pagination (coll : List Recipe)
    (page limit : Nat) (f : RecipeFilters) (s : RSort)
    (hm : needsMemoryFiltering f = true) :
    (findAll coll page limit f s).total =
      (coll.filter (fun r => pushPred f r && memPred f r)).length
    ∧ (findAll coll page limit f s).data =
      (((rSort s (coll.filter (pushPred f))).filter (memPred f)).drop
        ((page - 1) * limit)).take limit := by
  have hshape : findAll coll page limit f s =
      paginateQuery (memChain f (rSort s (coll.filter (pushPred f))))
        page limit := by
    rw [findAll_eq_paginateQuery, if_pos hm]
  rw [hshape]
  constructor
  · show (memChain f (rSort s (coll.filter (pushPred f)))).length = _
    rw [memChain_eq_filter]
    have hperm : List.Perm (rSort s (coll.filter (pushPred f)))
        (coll.filter (pushPred f)) := List.perm_insertionSort _ _
    rw [(hperm.filter (memPred f)).length_eq, List.filter_filter]
    have hfun : (fun a => memPred f a && pushPred f a) =
        (fun r => pushPred f r && memPred f r) := by
      funext r
      exact Bool.and_comm _ _
    rw [hfun]
  · show ((memChain f (rSort s (coll.filter (pushPred f)))).drop
        ((page - 1) * limit)).take limit = _
    rw [memChain_eq_filter]

/-- Witness for C1 at a concrete collection, a `minServings` memory-only
filter, page 1 and limit 10. -/
theorem c1_witness :
    needsMemoryFiltering wFilters = true
    ∧ ((findAll wColl 1 10 wFilters wSort).total =
        (wColl.filter
          (fun r => pushPred wFilters r && memPred wFilters r)).length
      ∧ (findAll wColl 1 10 wFilters wSort).data =
        (((rSort wSort (wColl.filter (pushPred wFilters))).filter
          (memPred wFilters)).drop ((1 - 1) * 10)).take 10) :=
  ⟨by decide, c1_memory_filter_pagination wColl 1 10 wFilters wSort (by decide)⟩

/-- Pagination contract of `paginateQuery` over an arbitrary query
result: ceiling-division characterization of `totalPages`, zero total
gives zero pages, and out-of-range pages give empty items with unchanged
totals. -/
theorem paginateQuery_contract (q : List Recipe) (page limit : Nat)
    (hl : 0 < limit) :
    ((paginateQuery q page limit).total ≤
        (paginateQuery q page limit).totalPages * limit
      ∧ (paginateQuery q page limit).totalPages * limit <
        (paginateQuery q page limit).total + limit)
    ∧ ((paginateQuery q page limit).total = 0 →
        (paginateQuery q page limit).totalPages = 0)
    ∧ ∀ p2 : Nat, (paginateQuery q page limit).totalPages < p2 →
        (paginateQuery q p2 limit).data = []
        ∧ (paginateQuery q p2 limit).total = (paginateQuery q page limit).total
        ∧ (paginateQuery q p2 limit).totalPages =
            (paginateQuery q page limit).totalPages := by
  refine ⟨⟨jsCeilDiv_ge q.length limit hl, jsCeilDiv_lt q.length limit hl⟩,
    ?_, ?_⟩
  · intro h0
    have h0l : q.length = 0 := h0
    show jsCeilDiv q.length limit = 0
    rw [h0l]
    exact jsCeilDiv_zero limit hl
  · intro p2 hp2
    have hp2l : jsCeilDiv q.length limit < p2 := hp2
    have h2 : jsCeilDiv q.length limit ≤ p2 - 1 := by omega
    have hlen : q.length ≤ (p2 - 1) * limit :=
      le_trans (jsCeilDiv_ge q.length limit hl)
        (Nat.mul_le_mul_right limit h2)
    refine ⟨?_, rfl, rfl⟩
    show ((q.drop ((p2 - 1) * limit)).take limit) = []
    rw [List.drop_eq_nil_of_le hlen]
    exact List.take_nil

/-- C3: in every `findAll` result (both pagination paths), `totalPages`
is the ceiling of `total / limit` (characterized by
`total ≤ totalPages * limit < total + limit`, which also forces
`totalPages = 0` when `total = 0`), and every page beyond `totalPages`
returns empty items with the same `total` and `totalPages`, never an
error. -/
theorem c3_pagination_contract (coll : List Recipe) (page limit : Nat)
    (f : RecipeFilters) (s : RSort) (hl : 0 < limit) :
    ((findAll coll page limit f s).total ≤
        (findAll coll page limit f s).totalPages * limit
      ∧ (findAll coll page limit f s).totalPages * limit <
        (findAll coll page limit f s).total + limit)
    ∧ ((findAll coll page limit f s).total = 0 →
        (findAll coll page limit f s).totalPages = 0)
    ∧ ∀ p2 : Nat, (findAll coll page limit f s).totalPages < p2 →
        (findAll coll p2 limit f s).data = []
        ∧ (findAll coll p2 limit f s).total =
            (findAll coll page limit f s).total
        ∧ (findAll coll p2 limit f s).totalPages =
            (findAll coll page limit f s).totalPages := by
  simp only [findAll_eq_paginateQuery]
  exact paginateQuery_contract _ page limit hl

/-- Witness for C3 at a concrete collection (3 recipes, limit 10, so
totalPages is 1): bounds hold and page 3 is empty with the same totals. -/
theorem c3_witness :
    (0 : Nat) < 10
    ∧ (findAll wColl 1 10 {} wSort).total ≤
        (findAll wColl 1 10 {} wSort).totalPages * 10
    ∧ (findAll wColl 3 10 {} wSort).data = []
    ∧ (findAll wColl 3 10 {} wSort).total =
        (findAll wColl 1 10 {} wSort).total :=
  ⟨by decide,
    (c3_pagination_contract wColl 1 10 {} wSort (by decide)).1.1,
    ((c3_pagination_contract wColl 1 10 {} wSort (by decide)).2.2 3
      (by decide)).1,
    ((c3_pagination_contract wColl 1 10 {} wSort (by decide)).2.2 3
      (by decide)).2.1⟩

/-- C4: category names are unique case-insensitively.  Creating a
category whose name matches an existing one case-insensitively fails
with the duplicate conflict; updating an existing category to a name
held case-insensitively by any other category fails with the duplicate
conflict; updating a category's name to its own current name succeeds
whenever no other category holds that name case-insensitively. -/
theorem c4_category_name_uniqueness :
    (∀ st data now, (∃ c ∈ st.cats, jsToLower c.name = jsToLower data.name) →
      (createCategory st data now).1 = Except.error Err.conflict)
    ∧ (∀ st id data now c0 n, getCat st id = some c0 → data.name = some n →
        n ≠ "" → (∃ c ∈ st.cats, c.id ≠ id ∧ jsToLower c.name = jsToLower n) →
        (updateCategory st id data now).1 = Except.error Err.conflict)
    ∧ (∀ st id data now c0, getCat st id = some c0 →
        data.name = some c0.name →
        (∀ x ∈ st.cats, x.id ≠ id → jsToLower x.name ≠ jsToLower c0.name) →
        ∃ cat, (updateCategory st id data now).1 = Except.ok cat) := by
  refine ⟨?_, ?_, ?_⟩
  · intro st data now h
    have hsome : (st.cats.find?
        (fun c => jsToLower c.name == jsToLower data.name)).isSome = true := by
      rw [List.find?_isSome]
      obtain ⟨c, hc, he⟩ := h
      exact ⟨c, hc, by simp [he]⟩
    simp [createCategory, hsome]
  · intro st id data now c0 n hfound hname hne h
    have hsome : (st.cats.find? (fun (x : Category) =>
        x.id != id && jsToLower x.name == jsToLower n)).isSome = true := by
      rw [List.find?_isSome]
      obtain ⟨c, hc, hcid, he⟩ := h
      exact ⟨c, hc, by simp [he, hcid]⟩
    have hnb : (n == "") = false := by simp [hne]
    simp [updateCategory, hfound, hname, hnb, hsome]
  · intro st id data now c0 hfound hname hother
    cases hnb : (c0.name == "") with
    | true =>
      rcases hres : (updateCategory st id data now).1 with e | cat
      · simp [updateCategory, hfound, hname, hnb] at hres
      · exact ⟨cat, rfl⟩
    | false =>
      have hnone : st.cats.find? (fun (x : Category) =>
          x.id != id && jsToLower x.name == jsToLower c0.name) = none := by
        rw [List.find?_eq_none]
        intro x hx
        by_cases hxi : x.id = id
        · simp [hxi]
        · simp [hxi, hother x hx hxi]
      rcases hres : (updateCategory st id data now).1 with e | cat
      · simp [updateCategory, hfound, hname, hnb, hnone] at hres
      · exact ⟨cat, rfl⟩

/-- Witness for C4: with Dessert present, creating dessert conflicts;
with Dessert and Salad present, renaming Salad to DESSERT conflicts;
renaming Dessert to its own name succeeds. -/
theorem c4_witness :
    (createCategory wCatSt { name := "dessert" } 5).1 =
        Except.error Err.conflict
    ∧ (updateCategory wCatSt2 "category_2" { name := "DESSERT" } 5).1 =
        Except.error Err.conflict
    ∧ ∃ cat, (updateCategory wCatSt "category_1" { name := "Dessert" } 5).1 =
        Except.ok cat :=
  ⟨c4_category_name_uniqueness.1 wCatSt { name := "dessert" } 5 (by decide),
   c4_category_name_uniqueness.2.1 wCatSt2 "category_2"
     { name := "DESSERT" } 5 (sampleCat "category_2" "Salad") "DESSERT"
     (by decide) rfl (by decide) (by decide),
   c4_category_name_uniqueness.2.2 wCatSt "category_1"
     { name := "Dessert" } 5 (sampleCat "category_1" "Dessert")
     (by decide) rfl (by decide)⟩

/-- C5: at most one review per (recipe, author) pair.  When the recipe
exists and the same author already has a review on it, `createReview`
fails with the duplicate conflict regardless of the new rating or
comment; and `createReview` never touches the recipe store. -/
theorem c5_review_uniqueness :
    (∀ st rid uid un d now rec, getRecipe st rid = some rec →
      (∃ rv ∈ st.reviews, rv.recipeId = rid ∧ rv.userId = uid) →
      (createReview st rid uid un d now).1 = Except.error Err.conflict)
    ∧ (∀ st rid uid un d now,
        ((createReview st rid uid un d now).2).recipes = st.recipes) := by
  constructor
  · intro st rid uid un d now rec hrec h
    have hsome : (findByRecipeAndUser st rid uid).isSome = true := by
      rw [findByRecipeAndUser, List.find?_isSome]
      obtain ⟨rv, hrv, h1, h2⟩ := h
      exact ⟨rv, hrv, by simp [h1, h2]⟩
    simp [createReview, hrec, hsome]
  · intro st rid uid un d now
    unfold createReview
    cases hrec : getRecipe st rid with
    | none => rfl
    | some rec =>
      cases hdup : (findByRecipeAndUser st rid uid).isSome <;>
        simp [hdup]

/-- Witness for C5: with a review by u1 on r1 present, a second review
by u1 conflicts even with a different rating, and a review by u2 leaves
the recipe store unchanged. -/
theorem c5_witness :
    (createReview wRevSt "r1" "u1" none { rating := 2 } 7).1 =
        Except.error Err.conflict
    ∧ ((createReview wRevSt "r1" "u2" none { rating := 2 } 7).2).recipes =
        wRevSt.recipes :=
  ⟨c5_review_uniqueness.1 wRevSt "r1" "u1" none { rating := 2 } 7
      (sampleRecipe "r1" "alice" 1 2 [] []) (by decide) (by decide),
   c5_review_uniqueness.2 wRevSt "r1" "u2" none { rating := 2 } 7⟩

/-- On nonnegative inputs, JS `Math.round` (half toward positive
infinity) coincides with round-half-away-from-zero. -/
theorem jsRound_eq_roundHalfAway (x : ℚ) (hx : 0 ≤ x) :
    jsRound x = roundHalfAway x := by
  rw [jsRound, roundHalfAway, if_pos hx]

/-- Shape of `getAverageRating` on a nonempty filtered review list. -/
theorem getAverageRating_eq (reviews : List Review) (rid : String)
    (hie : (reviews.filter (fun r => r.recipeId == rid)).isEmpty = false) :
    getAverageRating reviews rid =
      (((jsRound ((ratingSum (reviews.filter (fun r => r.recipeId == rid)) : ℚ) /
        ((reviews.filter (fun r => r.recipeId == rid)).length : ℚ) * 10)) : ℚ) / 10,
        (reviews.filter (fun r => r.recipeId == rid)).length) := by
  simp only [getAverageRating, hie, ratingSum]
  rw [if_neg]
  decide

/-- C6: the average rating is computed over every review of the recipe:
the empty set yields `(0, 0)` (never an error), and otherwise the result
is the count together with the mean of the ratings rounded to one
decimal place by round-half-away-from-zero at the tenths digit (the
source's `Math.round` agrees with that rounding because the mean of
ratings is nonnegative). -/
theorem c6_average_rating (reviews : List Review) (rid : String) :
    (reviews.filter (fun r => r.recipeId == rid) = [] →
      getAverageRating reviews rid = (0, 0))
    ∧ (reviews.filter (fun r => r.recipeId == rid) ≠ [] →
      getAverageRating reviews rid =
        (roundHalfAwayTenths
          ((ratingSum (reviews.filter (fun r => r.recipeId == rid)) : ℚ) /
            ((reviews.filter (fun r => r.recipeId == rid)).length : ℚ)),
          (reviews.filter (fun r => r.recipeId == rid)).length)) := by
  constructor
  · intro h
    simp [getAverageRating, h]
  · intro h
    have hie : (reviews.filter (fun r => r.recipeId == rid)).isEmpty = false := by
      cases hh : (reviews.filter (fun r => r.recipeId == rid)).isEmpty with
      | false => rfl
      | true => exact absurd (List.isEmpty_iff.mp hh) h
    have hX : (0:ℚ) ≤
        (ratingSum (reviews.filter (fun r => r.recipeId == rid)) : ℚ) /
        ((reviews.filter (fun r => r.recipeId == rid)).length : ℚ) * 10 := by
      have hs : (0:ℚ) ≤
          (ratingSum (reviews.filter (fun r => r.recipeId == rid)) : ℚ) :=
        Nat.cast_nonneg _
      have hlen : (0:ℚ) ≤
          ((reviews.filter (fun r => r.recipeId == rid)).length : ℚ) :=
        Nat.cast_nonneg _
      have hdiv := div_nonneg hs hlen
      nlinarith
    rw [getAverageRating_eq reviews rid hie, roundHalfAwayTenths,
      ← jsRound_eq_roundHalfAway _ hX]

/-- Witness for C6: ratings 5, 3 and 4 on one recipe yield count 3 and
average `roundHalfAwayTenths (12/3) = 4`. -/
theorem c6_witness :
    wReviews.filter (fun r => r.recipeId == "r1") ≠ []
    ∧ getAverageRating wReviews "r1" =
        (roundHalfAwayTenths ((12 : ℚ) / 3), 3)
    ∧ roundHalfAwayTenths ((12 : ℚ) / 3) = 4 := by
  refine ⟨by decide, ?_, ?_⟩
  · have h := (c6_average_rating wReviews "r1").2 (by decide)
    have h1 : ratingSum (wReviews.filter (fun r => r.recipeId == "r1")) = 12 := by
      decide
    have h2 : (wReviews.filter (fun r => r.recipeId == "r1")).length = 3 := by
      decide
    rw [h1, h2] at h
    exact_mod_cast h
  · norm_num [roundHalfAwayTenths, roundHalfAway]

/-- Lookup by a string key misses every list filtered on that key. -/
theorem find?_filter_key_ne {α : Type} (l : List α) (key : α → String)
    (id : String) :
    (l.filter (fun x => key x != id)).find? (fun x => key x == id) = none := by
  rw [List.find?_eq_none]
  intro x hx
  rw [List.mem_filter] at hx
  simpa using hx.2

/-- Counterexample to C2: deleting a recipe that owns two ingredients
and three reviews succeeds but leaves the first ingredient fetchable by
id, the first review fetchable by id, and all three reviews fetchable by
parentRecipeId. -/
theorem c2_counterexample :
    (deleteRecipe wCascadeSt "r1" "alice").1 = Except.ok ()
    ∧ getIngredient ((deleteRecipe wCascadeSt "r1" "alice").2) "ing_1" =
        some (sampleIngredient "ing_1" "r1")
    ∧ getReview ((deleteRecipe wCascadeSt "r1" "alice").2) "rev_1" =
        some (sampleReview "rev_1" "r1" "u1" 5)
    ∧ (((deleteRecipe wCascadeSt "r1" "alice").2).reviews.filter
        (fun r => r.recipeId == "r1")).length = 3 :=
  ⟨rfl, rfl, rfl, rfl⟩

/-- C2 (amended): a successful owner delete of a Recipe removes only the
Recipe record; the ingredient and review stores are untouched, so child
Ingredients and Reviews stay reachable (the repositories define
bulk-delete-by-parent operations, but no service or route invokes
them). -/
theorem c2_delete_recipe_no_cascade (st : St) (id uid : String)
    (r : Recipe) (hfind : getRecipe st id = some r)
    (howner : r.createdBy = uid) :
    (deleteRecipe st id uid).1 = Except.ok ()
    ∧ ((deleteRecipe st id uid).2).ingredients = st.ingredients
    ∧ ((deleteRecipe st id uid).2).reviews = st.reviews
    ∧ getRecipe ((deleteRecipe st id uid).2) id = none := by
  have hok : deleteRecipe st id uid = (Except.ok (),
      { st with recipes := st.recipes.filter (fun x => x.id != id) }) := by
    simp [deleteRecipe, hfind, howner]
  rw [hok]
  refine ⟨rfl, rfl, rfl, ?_⟩
  exact find?_filter_key_ne st.recipes (fun x => x.id) id

/-- Witness for C2 (amended) at the concrete cascade state. -/
theorem c2_witness :
    (deleteRecipe wCascadeSt "r1" "alice").1 = Except.ok ()
    ∧ ((deleteRecipe wCascadeSt "r1" "alice").2).ingredients =
        wCascadeSt.ingredients
    ∧ ((deleteRecipe wCascadeSt "r1" "alice").2).reviews =
        wCascadeSt.reviews
    ∧ getRecipe ((deleteRecipe wCascadeSt "r1" "alice").2) "r1" = none :=
  c2_delete_recipe_no_cascade wCascadeSt "r1" "alice"
    (sampleRecipe "r1" "alice" 1 2 ["ing_1", "ing_2"] [])
    (by decide) (by decide)

/-- Counterexample to C7: a caller holding the elevated role who is not
the review's author is rejected with Forbidden by deleteReview — the
role gate admits the request, but the service still requires
authorship. -/
theorem c7_counterexample :
    (deleteReviewEndpoint wRevSt "rev_1" "bob" ["admin"]).1 =
      Except.error Err.forbidden := rfl

/-- C7 (amended): update and delete of an existing Review by any caller
other than its author fail with Forbidden and leave the state unchanged,
whatever roles the caller holds — there is no elevated-role override in
the service. -/
theorem c7_review_authorization (st : St) (id caller : String)
    (roles : List String) (rv : Review) (d : UpdateReviewDto) (now : Nat)
    (hfind : getReview st id = some rv) (hne : rv.userId ≠ caller) :
    updateReview st id caller d now = (Except.error Err.forbidden, st)
    ∧ deleteReview st id caller = (Except.error Err.forbidden, st)
    ∧ deleteReviewEndpoint st id caller roles =
        (Except.error Err.forbidden, st) := by
  have hdel : deleteReview st id caller = (Except.error Err.forbidden, st) := by
    simp [deleteReview, hfind, hne]
  refine ⟨by simp [updateReview, hfind, hne], hdel, ?_⟩
  unfold deleteReviewEndpoint
  cases hgate : roles.any (fun r => r == "user" || r == "admin") with
  | true => simpa [hgate] using hdel
  | false => simp [hgate]

/-- Witness for C7 (amended) at the concrete review state. -/
theorem c7_witness :
    updateReview wRevSt "rev_1" "bob" {} 9 =
        (Except.error Err.forbidden, wRevSt)
    ∧ deleteReview wRevSt "rev_1" "bob" =
        (Except.error Err.forbidden, wRevSt)
    ∧ deleteReviewEndpoint wRevSt "rev_1" "bob" ["admin"] =
        (Except.error Err.forbidden, wRevSt) :=
  c7_review_authorization wRevSt "rev_1" "bob" ["admin"]
    (sampleReview "rev_1" "r1" "u1" 5) {} 9 (by decide) (by decide)

/-- C8: for an existing Recipe or Review, update and delete by a caller
who is not the owner/author fail with Forbidden and return the state
exactly as it was (the record — and everything else — is left
unmodified). -/
theorem c8_non_owner_forbidden (st : St) (now : Nat) :
    (∀ id caller d r, getRecipe st id = some r → r.createdBy ≠ caller →
      updateRecipe st id caller d now = (Except.error Err.forbidden, st)
      ∧ deleteRecipe st id caller = (Except.error Err.forbidden, st))
    ∧ (∀ id caller d rv, getReview st id = some rv → rv.userId ≠ caller →
      updateReview st id caller d now = (Except.error Err.forbidden, st)
      ∧ deleteReview st id caller = (Except.error Err.forbidden, st)) := by
  constructor
  · intro id caller d r hfind hne
    exact ⟨by simp [updateRecipe, hfind, hne],
      by simp [deleteRecipe, hfind, hne]⟩
  · intro id caller d rv hfind hne
    exact ⟨by simp [updateReview, hfind, hne],
      by simp [deleteReview, hfind, hne]⟩

/-- Witness for C8 at the concrete review state (recipe r1 owned by
alice, review rev_1 authored by u1, caller mallory). -/
theorem c8_witness :
    (updateRecipe wRevSt "r1" "mallory" {} 9 =
        (Except.error Err.forbidden, wRevSt)
      ∧ deleteRecipe wRevSt "r1" "mallory" =
        (Except.error Err.forbidden, wRevSt))
    ∧ (updateReview wRevSt "rev_1" "mallory" {} 9 =
        (Except.error Err.forbidden, wRevSt)
      ∧ deleteReview wRevSt "rev_1" "mallory" =
        (Except.error Err.forbidden, wRevSt)) :=
  ⟨(c8_non_owner_forbidden wRevSt 9).1 "r1" "mallory" {}
      (sampleRecipe "r1" "alice" 1 2 [] []) (by decide) (by decide),
    (c8_non_owner_forbidden wRevSt 9).2 "rev_1" "mallory" {}
      (sampleReview "rev_1" "r1" "u1" 5) (by decide) (by decide)⟩

/-- Counterexample to C9: deleting a Category referenced by a Recipe
succeeds yet the Recipe still lists the deleted id in categoryIds. -/
theorem c9_counterexample :
    (deleteCategory wCatRecipeSt "cat_1").1 = Except.ok ()
    ∧ getRecipe ((deleteCategory wCatRecipeSt "cat_1").2) "r1" =
        some (sampleRecipe "r1" "alice" 1 2 [] ["cat_1"])
    ∧ "cat_1" ∈ (sampleRecipe "r1" "alice" 1 2 [] ["cat_1"]).categoryIds :=
  ⟨rfl, rfl, by decide⟩

/-- C9 (amended): a successful delete of an Ingredient removes its id
from the owning Recipe's ingredientIds (and, when the id is referenced
only by its parent, from every Recipe) and deletes the record; a delete
of a Category leaves every Recipe — in particular its categoryIds —
untouched. -/
theorem c9_delete_unlinking :
    (∀ st iid now ing p, getIngredient st iid = some ing →
      getRecipe st ing.recipeId = some p →
      (∀ r ∈ st.recipes, iid ∈ r.ingredientIds → r.id = ing.recipeId) →
      (deleteIngredient st iid now).1 = Except.ok ()
      ∧ (∀ r ∈ ((deleteIngredient st iid now).2).recipes,
          iid ∉ r.ingredientIds)
      ∧ getIngredient ((deleteIngredient st iid now).2) iid = none)
    ∧ (∀ st id, ((deleteCategory st id).2).recipes = st.recipes) := by
  constructor
  · intro st iid now ing p hing hp hinv
    have hrem : removeIngredientFromRecipe st ing.recipeId iid now =
        (Except.ok { p with
            ingredientIds := p.ingredientIds.filter (fun x => x != iid)
            updatedAt := now },
          setRecipe st ing.recipeId { p with
            ingredientIds := p.ingredientIds.filter (fun x => x != iid)
            updatedAt := now }) := by
      simp [removeIngredientFromRecipe, hp]
    have hi1 : getIngredient (setRecipe st ing.recipeId { p with
        ingredientIds := p.ingredientIds.filter (fun x => x != iid)
        updatedAt := now }) iid = some ing := hing
    have hres : deleteIngredient st iid now =
        (Except.ok (), { setRecipe st ing.recipeId { p with
            ingredientIds := p.ingredientIds.filter (fun x => x != iid)
            updatedAt := now } with
          ingredients := st.ingredients.filter (fun x => x.id != iid) }) := by
      simp [deleteIngredient, hing, hrem, setRecipe]
      intro hc
      have hc2 : getIngredient st iid = none := hc
      rw [hing] at hc2
      exact Option.noConfusion hc2
    rw [hres]
    dsimp only
    refine ⟨rfl, ?_, ?_⟩
    · intro r hr hmem
      simp only [setRecipe, List.mem_map] at hr
      obtain ⟨x, hx, hmap⟩ := hr
      by_cases hxi : (x.id == ing.recipeId) = true
      · rw [if_pos hxi] at hmap
        rw [← hmap] at hmem
        simp only [List.mem_filter] at hmem
        simpa using hmem.2
      · rw [if_neg hxi] at hmap
        rw [← hmap] at hmem
        exact hxi (by simp [hinv x hx hmem])
    · exact find?_filter_key_ne st.ingredients (fun x => x.id) iid
  · intro st id
    unfold deleteCategory
    cases h : getCat st id <;> rfl

/-- Witness for C9 (amended) at the concrete linked-ingredient state and
the concrete category state. -/
theorem c9_witness :
    ((deleteIngredient wIngSt "ing_1" 9).1 = Except.ok ()
      ∧ (∀ r ∈ ((deleteIngredient wIngSt "ing_1" 9).2).recipes,
          "ing_1" ∉ r.ingredientIds)
      ∧ getIngredient ((deleteIngredient wIngSt "ing_1" 9).2) "ing_1" = none)
    ∧ ((deleteCategory wCatRecipeSt "cat_1").2).recipes =
        wCatRecipeSt.recipes :=
  ⟨c9_delete_unlinking.1 wIngSt "ing_1" 9
      (sampleIngredient "ing_1" "r1")
      (sampleRecipe "r1" "alice" 1 2 ["ing_1"] [])
      (by decide) (by decide) (by decide),
    c9_delete_unlinking.2 wCatRecipeSt "cat_1"⟩

/-- Overwriting the value at key `k` leaves lookups of other keys
unchanged. -/
theorem getVal_map_overwrite {α : Type} (doc : List (String × α))
    (k : String) (v : α) (k2 : String) (hne : k2 ≠ k) :
    getVal (doc.map (fun p => if p.1 == k then (k, v) else p)) k2 =
      getVal doc k2 := by
  induction doc with
  | nil => rfl
  | cons p t ih =>
    rw [List.map_cons]
    by_cases hp : p.1 = k
    · rw [if_pos (by simp [hp] : (p.1 == k) = true)]
      simp only [getVal]
      rw [if_neg (by simp [Ne.symm hne] : ¬ (k == k2) = true),
        if_neg (by simp [hp, Ne.symm hne] : ¬ (p.1 == k2) = true)]
      exact ih
    · rw [if_neg (by simp [hp] : ¬ (p.1 == k) = true)]
      simp only [getVal]
      by_cases hq : p.1 = k2
      · rw [if_pos (by simp [hq]), if_pos (by simp [hq])]
      · rw [if_neg (by simp [hq]), if_neg (by simp [hq])]
        exact ih

/-- Overwriting the value at a key that is present makes lookups of that
key return the new value. -/
theorem getVal_map_overwrite_found {α : Type} (doc : List (String × α))
    (k : String) (v : α) (h : (getVal doc k).isSome = true) :
    getVal (doc.map (fun p => if p.1 == k then (k, v) else p)) k =
      some v := by
  induction doc with
  | nil => simp [getVal] at h
  | cons p t ih =>
    rw [List.map_cons]
    by_cases hp : p.1 = k
    · rw [if_pos (by simp [hp] : (p.1 == k) = true)]
      simp only [getVal]
      rw [if_pos (by simp : (k == k) = true)]
    · rw [if_neg (by simp [hp] : ¬ (p.1 == k) = true)]
      have h2 : (getVal t k).isSome = true := by
        have h3 := h
        simp only [getVal] at h3
        rwa [if_neg (by simp [hp] : ¬ (p.1 == k) = true)] at h3
      simp only [getVal]
      rw [if_neg (by simp [hp] : ¬ (p.1 == k) = true)]
      exact ih h2

/-- Appending a single entry with a different key does not change a
lookup. -/
theorem getVal_append_single_ne {α : Type} (doc : List (String × α))
    (k : String) (v : α) (k2 : String) (hne : k2 ≠ k) :
    getVal (doc ++ [(k, v)]) k2 = getVal doc k2 := by
  induction doc with
  | nil =>
    simp only [List.nil_append, getVal]
    rw [if_neg (by simp [Ne.symm hne] : ¬ (k == k2) = true)]
  | cons p t ih =>
    simp only [List.cons_append, getVal]
    by_cases hq : p.1 = k2
    · rw [if_pos (by simp [hq]), if_pos (by simp [hq])]
    · rw [if_neg (by simp [hq]), if_neg (by simp [hq])]
      exact ih

/-- Appending a single entry to a document missing its key makes the
lookup return it. -/
theorem getVal_append_single_self {α : Type} (doc : List (String × α))
    (k : String) (v : α) (h : (getVal doc k).isSome = false) :
    getVal (doc ++ [(k, v)]) k = some v := by
  induction doc with
  | nil =>
    simp only [List.nil_append, getVal]
    rw [if_pos (by simp : (k == k) = true)]
  | cons p t ih =>
    by_cases hp : p.1 = k
    · exfalso
      have h3 := h
      simp only [getVal] at h3
      rw [if_pos (by simp [hp] : (p.1 == k) = true)] at h3
      simp at h3
    · have h2 : (getVal t k).isSome = false := by
        have h3 := h
        simp only [getVal] at h3
        rwa [if_neg (by simp [hp] : ¬ (p.1 == k) = true)] at h3
      simp only [List.cons_append, getVal]
      rw [if_neg (by simp [hp] : ¬ (p.1 == k) = true)]
      exact ih h2

/-- Writing one field resolves that field to the written value. -/
theorem setKey_getVal_self {α : Type} (doc : List (String × α))
    (k : String) (v : α) : getVal (setKey doc k v) k = some v := by
  unfold setKey
  cases hc : (getVal doc k).isSome with
  | true =>
    rw [if_pos rfl]
    exact getVal_map_overwrite_found doc k v hc
  | false =>
    rw [if_neg (by decide : ¬ (false = true))]
    exact getVal_append_single_self doc k v hc

/-- Writing one field leaves every other field untouched. -/
theorem setKey_getVal_ne {α : Type} (doc : List (String × α))
    (k : String) (v : α) (k2 : String) (hne : k2 ≠ k) :
    getVal (setKey doc k v) k2 = getVal doc k2 := by
  unfold setKey
  cases hc : (getVal doc k).isSome with
  | true =>
    rw [if_pos rfl]
    exact getVal_map_overwrite doc k v k2 hne
  | false =>
    rw [if_neg (by decide : ¬ (false = true))]
    exact getVal_append_single_ne doc k v k2 hne

/-- Applying an update whose keys all differ from `k` leaves `k`
untouched. -/
theorem applyUpdateData_getVal_ne {α : Type} (upd : List (String × α))
    (doc : List (String × α)) (k : String)
    (h : ∀ p ∈ upd, p.1 ≠ k) :
    getVal (applyUpdateData doc upd) k = getVal doc k := by
  induction upd generalizing doc with
  | nil => rfl
  | cons p t ih =>
    show getVal (applyUpdateData (setKey doc p.1 p.2) t) k = getVal doc k
    rw [ih (setKey doc p.1 p.2) (fun q hq => h q (List.mem_cons_of_mem _ hq))]
    exact setKey_getVal_ne doc p.1 p.2 k
      (Ne.symm (h p (List.mem_cons_self _ _)))

/-- The last written field wins. -/
theorem applyUpdateData_last {α : Type} (doc upd : List (String × α))
    (k : String) (v : α) :
    getVal (applyUpdateData doc (upd ++ [(k, v)])) k = some v := by
  show getVal ((upd ++ [(k, v)]).foldl (fun d p => setKey d p.1 p.2) doc) k =
    some v
  rw [List.foldl_append]
  exact setKey_getVal_self _ k v

/-- C10: the frame property of `BaseRepository.update(id, partialData)`
on an existing document: every stored field whose key is absent from the
update payload — other than `updatedAt` — keeps its previous value, the
`id` field keeps its previous value even when the payload carries an
`id` key, and `updatedAt` is stamped to the new time. -/
theorem c10_update_frame {α : Type}
    (store : List (String × List (String × α))) (id : String)
    (data : List (String × α)) (now : α)
    (doc doc2 : List (String × α))
    (hdoc : getVal store id = some doc)
    (hupd : repoUpdate store id data now = some doc2) :
    (∀ k, (∀ p ∈ data, p.1 ≠ k) → k ≠ "updatedAt" →
      getVal doc2 k = getVal doc k)
    ∧ getVal doc2 "id" = getVal doc "id"
    ∧ getVal doc2 "updatedAt" = some now := by
  have hdoc2 : doc2 = applyUpdateData doc (buildUpdateData data now) := by
    rw [repoUpdate, hdoc] at hupd
    exact (Option.some.injEq _ _ ▸ hupd).symm
  subst hdoc2
  refine ⟨?_, ?_, ?_⟩
  · intro k hk hkup
    rw [buildUpdateData, applyUpdateData_getVal_ne]
    intro p hp
    rw [List.mem_append] at hp
    rcases hp with hp | hp
    · exact hk p (List.mem_of_mem_filter hp)
    · simp only [List.mem_singleton] at hp
      rw [hp]
      exact fun he => hkup he.symm
  · rw [buildUpdateData, applyUpdateData_getVal_ne]
    intro p hp
    rw [List.mem_append] at hp
    rcases hp with hp | hp
    · rw [List.mem_filter] at hp
      have h2 := hp.2
      simp only [Bool.and_eq_true, bne_iff_ne] at h2
      exact h2.1
    · simp only [List.mem_singleton] at hp
      rw [hp]
      intro he
      have he2 : ("updatedAt" : String) = "id" := he
      exact absurd he2 (by decide)
  · rw [buildUpdateData]
    exact applyUpdateData_last doc _ "updatedAt" now

/-- Witness for C10: updating a recipe document with a title and a
spoofed id leaves the untouched description and the id as they were and
stamps updatedAt. -/
theorem c10_witness :
    getVal wStore "doc_1" = some wDoc
    ∧ repoUpdate wStore "doc_1" wData 9 = some wDoc2
    ∧ getVal wDoc2 "description" = getVal wDoc "description"
    ∧ getVal wDoc2 "id" = getVal wDoc "id"
    ∧ getVal wDoc2 "updatedAt" = some 9 := by
  have h := c10_update_frame wStore "doc_1" wData 9 wDoc wDoc2 rfl rfl
  exact ⟨rfl, rfl, h.1 "description" (by decide) (by decide), h.2.1, h.2.2⟩

end RecipePlatform
